import Mathlib

set_option maxRecDepth 2000
set_option maxHeartbeats 4000000

/-!
Verification development for the secure-messaging core of a decentralized
P2P chat repository (Python).  The definitions below are shallow embeddings
of the Python source:

  - src/crypto/double_ratchet.py        (class DoubleRatchet)
  - src/crypto/advanced_crypto_manager.py
        (classes X3DHKeyManager, RatchetKeyManager, AdvancedCryptoManager)
  - src/network/tls_protocol.py         (class ObfuscatedProtocol)
  - src/network/kademlia_dht.py         (classes Node, KBucket, KademliaDHT)

Byte strings are modelled as `List Nat` with every element < 256 by
construction of the producing functions.  The HKDF-SHA256 derivation used
throughout the Python code (cryptography.hazmat HKDF with salt=None) is
implemented concretely below, so that key-derivation facts are decidable.
Curve25519 scalar multiplication (nacl.bindings.crypto_scalarmult) is kept
as an explicit function parameter of the protocol definitions; concrete
counterexamples instantiate it with a discrete-log toy group that has the
same Diffie-Hellman structure.
-/

abbrev Bytes := List Nat

/-- ASCII bytes of a string literal, as Python's str.encode(). -/
def strBytes (s : String) : Bytes := s.data.map Char.toNat

/-- Decimal digit characters of a natural number (ASCII codes), fuelled. -/
def natDigitsAux : Nat → Nat → Bytes
  | 0, _ => []
  | f + 1, n => if n < 10 then [48 + n] else natDigitsAux f (n / 10) ++ [48 + n % 10]

/-- ASCII decimal representation of a natural number, as Python str(n). -/
def natDigits (n : Nat) : Bytes := natDigitsAux (n + 1) n

/-- Big-endian byte serialization of `x` into `n` bytes. -/
def toBytesBE (n : Nat) (x : Nat) : Bytes :=
  (List.range n).map (fun i => x / 256 ^ (n - 1 - i) % 256)

/-! ### SHA-256 (FIPS 180-4), executable -/

/-- Truncation to a 32-bit word. -/
def w32 (x : Nat) : Nat := x % 4294967296

/-- Right rotation of a 32-bit word by `n` places (0 < n < 32, x < 2^32). -/
def rotr (n x : Nat) : Nat := x / 2 ^ n + x % 2 ^ n * 2 ^ (32 - n)

/-- Logical right shift. -/
def shr (n x : Nat) : Nat := x / 2 ^ n

def bsig0 (x : Nat) : Nat := rotr 2 x ^^^ rotr 13 x ^^^ rotr 22 x
def bsig1 (x : Nat) : Nat := rotr 6 x ^^^ rotr 11 x ^^^ rotr 25 x
def ssig0 (x : Nat) : Nat := rotr 7 x ^^^ rotr 18 x ^^^ shr 3 x
def ssig1 (x : Nat) : Nat := rotr 17 x ^^^ rotr 19 x ^^^ shr 10 x
def chF (x y z : Nat) : Nat := x &&& y ^^^ (x ^^^ 4294967295) &&& z
def majF (x y z : Nat) : Nat := x &&& y ^^^ x &&& z ^^^ y &&& z

/-- The 64 SHA-256 round constants. -/
def K256 : List Nat :=
  [1116352408, 1899447441, 3049323471, 3921009573, 961987163, 1508970993,
   2453635748, 2870763221, 3624381080, 310598401, 607225278, 1426881987,
   1925078388, 2162078206, 2614888103, 3248222580, 3835390401, 4022224774,
   264347078, 604807628, 770255983, 1249150122, 1555081692, 1996064986,
   2554220882, 2821834349, 2952996808, 3210313671, 3336571891, 3584528711,
   113926993, 338241895, 666307205, 773529912, 1294757372, 1396182291,
   1695183700, 1986661051, 2177026350, 2456956037, 2730485921, 2820302411,
   3259730800, 3345764771, 3516065817, 3600352804, 4094571909, 275423344,
   430227734, 506948616, 659060556, 883997877, 958139571, 1322822218,
   1537002063, 1747873779, 1955562222, 2024104815, 2227730452, 2361852424,
   2428436474, 2756734187, 3204031479, 3329325298]

structure Sha256State where
  h0 : Nat
  h1 : Nat
  h2 : Nat
  h3 : Nat
  h4 : Nat
  h5 : Nat
  h6 : Nat
  h7 : Nat
deriving DecidableEq

/-- Initial SHA-256 chaining state. -/
def sha256Init : Sha256State :=
  ⟨1779033703, 3144134277, 1013904242, 2773480762,
   1359893119, 2600822924, 528734635, 1541459225⟩

/-- Group a byte string into big-endian 32-bit words. -/
def toWords32 : Bytes → List Nat
  | a :: b :: c :: d :: rest => (((a * 256 + b) * 256 + c) * 256 + d) :: toWords32 rest
  | _ => []

/-- Extend a 16-word block schedule by `n` further words. -/
def extendSchedule (w : List Nat) : Nat → List Nat
  | 0 => w
  | n + 1 =>
    let v := extendSchedule w n
    v ++ [w32 (ssig1 (v.getD (v.length - 2) 0) + v.getD (v.length - 7) 0 +
               ssig0 (v.getD (v.length - 15) 0) + v.getD (v.length - 16) 0)]

/-- The 64 compression rounds, consuming the zipped schedule/constant list. -/
def sha256Rounds : List (Nat × Nat) → Sha256State → Sha256State
  | [], s => s
  | (wi, ki) :: rest, s =>
    let t1 := w32 (s.h7 + bsig1 s.h4 + chF s.h4 s.h5 s.h6 + ki + wi)
    let t2 := w32 (bsig0 s.h0 + majF s.h0 s.h1 s.h2)
    sha256Rounds rest
      ⟨w32 (t1 + t2), s.h0, s.h1, s.h2, w32 (s.h3 + t1), s.h4, s.h5, s.h6⟩

/-- Compress one 64-byte block into the chaining state. -/
def compressBlock (s : Sha256State) (block : Bytes) : Sha256State :=
  let w := extendSchedule (toWords32 block) 48
  let r := sha256Rounds (w.zip K256) s
  ⟨w32 (s.h0 + r.h0), w32 (s.h1 + r.h1), w32 (s.h2 + r.h2), w32 (s.h3 + r.h3),
   w32 (s.h4 + r.h4), w32 (s.h5 + r.h5), w32 (s.h6 + r.h6), w32 (s.h7 + r.h7)⟩

/-- SHA-256 message padding: 0x80, zeros, 64-bit big-endian bit length. -/
def sha256Pad (msg : Bytes) : Bytes :=
  let L := msg.length
  let k := (119 - L % 64) % 64
  msg ++ [128] ++ List.replicate k 0 ++ toBytesBE 8 (8 * L)

/-- Split into 64-byte blocks (`fuel` bounds the recursion structurally). -/
def chunk64F : Nat → Bytes → List Bytes
  | 0, _ => []
  | _, [] => []
  | fuel + 1, b => b.take 64 :: chunk64F fuel (b.drop 64)

/-- Serialize the chaining state to the 32-byte digest. -/
def stateBytes (s : Sha256State) : Bytes :=
  toBytesBE 4 s.h0 ++ toBytesBE 4 s.h1 ++ toBytesBE 4 s.h2 ++ toBytesBE 4 s.h3 ++
  toBytesBE 4 s.h4 ++ toBytesBE 4 s.h5 ++ toBytesBE 4 s.h6 ++ toBytesBE 4 s.h7

/-- SHA-256 digest (32 bytes) of a byte string. -/
def sha256 (msg : Bytes) : Bytes :=
  let padded := sha256Pad msg
  stateBytes ((chunk64F (padded.length) padded).foldl compressBlock sha256Init)

/-! ### HMAC-SHA256 and HKDF-SHA256 -/

/-- HMAC-SHA256 (RFC 2104) with a 64-byte block size. -/
def hmacSha256 (key msg : Bytes) : Bytes :=
  let k0 := if key.length > 64 then sha256 key else key
  let k1 := k0 ++ List.replicate (64 - k0.length) 0
  let ipad := k1.map (fun b => b ^^^ 54)
  let opad := k1.map (fun b => b ^^^ 92)
  sha256 (opad ++ sha256 (ipad ++ msg))

/-- HKDF-SHA256 with length 32 and salt=None (i.e. 32 zero bytes), as used by
cryptography.hazmat HKDF in the Python source: extract then a single
expand block T(1) = HMAC(PRK, info || 0x01). -/
def hkdfSha256 (ikm info : Bytes) : Bytes :=
  let prk := hmacSha256 (List.replicate 32 0) ikm
  hmacSha256 prk (info ++ [1])

/-! ### Association-list model of Python dict

Python dict semantics: unique keys, assignment replaces the binding in
place, del removes the single binding, subscript returns the binding. -/

/-- Dict assignment d[k] = v: replace the existing binding or append. -/
def insertD {α β : Type} [DecidableEq α] :
    List (α × β) → α → β → List (α × β)
  | [], k, v => [(k, v)]
  | (k', v') :: rest, k, v =>
    if k' = k then (k, v) :: rest else (k', v') :: insertD rest k v

/-- Dict deletion del d[k]: drop the (unique) binding for k. -/
def eraseD {α β : Type} [DecidableEq α] :
    List (α × β) → α → List (α × β)
  | [], _ => []
  | (k', v') :: rest, k =>
    if k' = k then rest else (k', v') :: eraseD rest k

/-- Dict lookup d.get(k). -/
def lookupD {α β : Type} [DecidableEq α] :
    List (α × β) → α → Option β
  | [], _ => none
  | (k', v') :: rest, k => if k' = k then some v' else lookupD rest k

theorem lookupD_eq_none_iff {α β : Type} [DecidableEq α]
    (l : List (α × β)) (k : α) :
    lookupD l k = none ↔ k ∉ l.map Prod.fst := by
  induction l with
  | nil => simp [lookupD]
  | cons p rest ih =>
    by_cases h : p.1 = k
    · simp [lookupD, h]
    · simp only [lookupD, if_neg h, List.map_cons, List.mem_cons, ih]
      constructor
      · rintro hn (hk | hk)
        · exact h hk.symm
        · exact hn hk
      · intro hn hk
        exact hn (Or.inr hk)

theorem mem_of_lookupD_isSome {α β : Type} [DecidableEq α]
    {l : List (α × β)} {k : α} (h : (lookupD l k).isSome) :
    k ∈ l.map Prod.fst := by
  by_contra hk
  rw [← lookupD_eq_none_iff l k] at hk
  rw [hk] at h
  simp at h

theorem eraseD_lookup_none {α β : Type} [DecidableEq α]
    {l : List (α × β)} (k : α) (h : (l.map Prod.fst).Nodup) :
    lookupD (eraseD l k) k = none := by
  induction l with
  | nil => simp [eraseD, lookupD]
  | cons p rest ih =>
    simp only [List.map_cons, List.nodup_cons] at h
    by_cases hpk : p.1 = k
    · rw [show eraseD (p :: rest) k = rest by simp [eraseD, hpk],
         lookupD_eq_none_iff]
      rw [← hpk]
      exact h.1
    · rw [show eraseD (p :: rest) k = p :: eraseD rest k by simp [eraseD, hpk]]
      simp only [lookupD, if_neg hpk]
      exact ih h.2

theorem eraseD_sublist {α β : Type} [DecidableEq α]
    (l : List (α × β)) (k : α) : (eraseD l k).Sublist l := by
  induction l with
  | nil => simp [eraseD]
  | cons p rest ih =>
    by_cases hpk : p.1 = k
    · rw [show eraseD (p :: rest) k = rest by simp [eraseD, hpk]]
      exact List.sublist_cons_self p rest
    · rw [show eraseD (p :: rest) k = p :: eraseD rest k by simp [eraseD, hpk]]
      exact ih.cons₂ p

theorem insertD_fresh {α β : Type} [DecidableEq α]
    {l : List (α × β)} {k : α} (v : β) (h : k ∉ l.map Prod.fst) :
    insertD l k v = l ++ [(k, v)] := by
  induction l with
  | nil => simp [insertD]
  | cons p rest ih =>
    simp only [List.map_cons, List.mem_cons] at h
    push_neg at h
    have hp : ¬ p.1 = k := fun hk => h.1 hk.symm
    simp [insertD, hp, ih h.2]

/-! ### DoubleRatchet (src/crypto/double_ratchet.py)

State of class DoubleRatchet.  The two ratchet DH keypairs
(send_ratchet_key, recv_ratchet_key) are freshly generated random keys
read only by advance_send_chain, advance_recv_chain and
get_send_ratchet_pub, none of which is involved in the claims below, so
they are not part of the embedded state.  The method _hkdf is the
HKDF-SHA256 implemented above; the definitions take the derivation
function as the parameter `kdf` so that bookkeeping facts hold for any
derivation function, and concrete claims instantiate `kdf := hkdfSha256`. -/

structure DoubleRatchet where
  shared_secret : Bytes
  root_key : Bytes
  send_chain_key : Bytes
  recv_chain_key : Bytes
  send_message_num : Nat
  recv_message_num : Nat
  previous_send_chain_length : Nat
  saved_keys : List (Nat × Bytes)
deriving DecidableEq

/-- DoubleRatchet._kdf_ratchet: derive (next chain key, output key). -/
def kdf_ratchet (kdf : Bytes → Bytes → Bytes) (chain_key info : Bytes) :
    Bytes × Bytes :=
  (kdf chain_key (info ++ strBytes "_next"), kdf chain_key (info ++ strBytes "_output"))

/-- DoubleRatchet.__init__(shared_secret). -/
def DoubleRatchet.init (kdf : Bytes → Bytes → Bytes) (shared_secret : Bytes) :
    DoubleRatchet :=
  let root_key := kdf shared_secret (strBytes "root_key")
  { shared_secret := shared_secret
    root_key := root_key
    send_chain_key := kdf root_key (strBytes "send_chain_key")
    recv_chain_key := kdf root_key (strBytes "recv_chain_key")
    send_message_num := 0
    recv_message_num := 0
    previous_send_chain_length := 0
    saved_keys := [] }

/-- DoubleRatchet.get_next_send_key: returns ((message key, message number),
state of the object after the call). -/
def DoubleRatchet.get_next_send_key (kdf : Bytes → Bytes → Bytes)
    (st : DoubleRatchet) : (Bytes × Nat) × DoubleRatchet :=
  let r := kdf_ratchet kdf st.send_chain_key
    (strBytes "send_" ++ natDigits st.send_message_num)
  ((r.2, st.send_message_num),
   { st with send_chain_key := r.1,
             send_message_num := st.send_message_num + 1 })

/-- The single error raised by get_next_recv_key (a ValueError for an
expired message number). -/
inductive RecvError where
  | expired : RecvError
deriving DecidableEq

/-- The skip loop of get_next_recv_key: starting at message index i,
derive n skipped keys, threading the receive chain key and saving each
skipped key in the dict. -/
def skip_recv_keys (kdf : Bytes → Bytes → Bytes) :
    Bytes → List (Nat × Bytes) → Nat → Nat → Bytes × List (Nat × Bytes)
  | ck, saved, _, 0 => (ck, saved)
  | ck, saved, i, n + 1 =>
    skip_recv_keys kdf (kdf_ratchet kdf ck (strBytes "recv_" ++ natDigits i)).1
      (insertD saved i (kdf_ratchet kdf ck (strBytes "recv_" ++ natDigits i)).2)
      (i + 1) n

/-- DoubleRatchet.get_next_recv_key(msg_num).  Returns the result (the
message key, or the raised error) together with the state of the object
after the call; on a raise the object is unchanged because the raise
happens before any assignment. -/
def DoubleRatchet.get_next_recv_key (kdf : Bytes → Bytes → Bytes)
    (st : DoubleRatchet) (msg_num : Nat) :
    Except RecvError Bytes × DoubleRatchet :=
  match lookupD st.saved_keys msg_num with
  | some key => (.ok key, { st with saved_keys := eraseD st.saved_keys msg_num })
  | none =>
    if msg_num > st.recv_message_num then
      -- the source also copies recv_chain_key into a temp variable here,
      -- but never reads it again (dead store)
      let s := skip_recv_keys kdf st.recv_chain_key st.saved_keys
        st.recv_message_num (msg_num - st.recv_message_num)
      let r := kdf_ratchet kdf s.1 (strBytes "recv_" ++ natDigits msg_num)
      (.ok r.2,
       { st with recv_chain_key := r.1, saved_keys := s.2,
                 recv_message_num := msg_num + 1 })
    else if msg_num = st.recv_message_num then
      let r := kdf_ratchet kdf st.recv_chain_key
        (strBytes "recv_" ++ natDigits msg_num)
      (.ok r.2,
       { st with recv_chain_key := r.1, recv_message_num := msg_num + 1 })
    else
      (.error .expired, st)

/-- Branch equation: a saved (out-of-order) key is returned and deleted. -/
theorem get_next_recv_key_saved (kdf : Bytes → Bytes → Bytes)
    (st : DoubleRatchet) (msg_num : Nat) (key : Bytes)
    (h : lookupD st.saved_keys msg_num = some key) :
    st.get_next_recv_key kdf msg_num =
      (.ok key, { st with saved_keys := eraseD st.saved_keys msg_num }) := by
  unfold DoubleRatchet.get_next_recv_key
  rw [h]

/-- Branch equation: skipping forward when msg_num exceeds the counter. -/
theorem get_next_recv_key_skip (kdf : Bytes → Bytes → Bytes)
    (st : DoubleRatchet) (msg_num : Nat)
    (hl : lookupD st.saved_keys msg_num = none)
    (hgt : msg_num > st.recv_message_num) :
    st.get_next_recv_key kdf msg_num =
      (.ok (kdf_ratchet kdf
          (skip_recv_keys kdf st.recv_chain_key st.saved_keys
            st.recv_message_num (msg_num - st.recv_message_num)).1
          (strBytes "recv_" ++ natDigits msg_num)).2,
       { st with
          recv_chain_key := (kdf_ratchet kdf
            (skip_recv_keys kdf st.recv_chain_key st.saved_keys
              st.recv_message_num (msg_num - st.recv_message_num)).1
            (strBytes "recv_" ++ natDigits msg_num)).1,
          saved_keys := (skip_recv_keys kdf st.recv_chain_key st.saved_keys
            st.recv_message_num (msg_num - st.recv_message_num)).2,
          recv_message_num := msg_num + 1 }) := by
  unfold DoubleRatchet.get_next_recv_key
  rw [hl]
  simp [hgt]

/-- Branch equation: in-order receive (msg_num equals the counter). -/
theorem get_next_recv_key_inorder (kdf : Bytes → Bytes → Bytes)
    (st : DoubleRatchet) (msg_num : Nat)
    (hl : lookupD st.saved_keys msg_num = none)
    (heq : msg_num = st.recv_message_num) :
    st.get_next_recv_key kdf msg_num =
      (.ok (kdf_ratchet kdf st.recv_chain_key
          (strBytes "recv_" ++ natDigits msg_num)).2,
       { st with
          recv_chain_key := (kdf_ratchet kdf st.recv_chain_key
            (strBytes "recv_" ++ natDigits msg_num)).1,
          recv_message_num := msg_num + 1 }) := by
  unfold DoubleRatchet.get_next_recv_key
  rw [hl]
  simp [heq]

/-- Branch equation: an expired message number raises, leaving the state
unchanged. -/
theorem get_next_recv_key_expired (kdf : Bytes → Bytes → Bytes)
    (st : DoubleRatchet) (msg_num : Nat)
    (hl : lookupD st.saved_keys msg_num = none)
    (hlt : msg_num < st.recv_message_num) :
    st.get_next_recv_key kdf msg_num = (.error .expired, st) := by
  unfold DoubleRatchet.get_next_recv_key
  rw [hl]
  have h1 : ¬ msg_num > st.recv_message_num := Nat.not_lt_of_lt hlt
  have h2 : ¬ msg_num = st.recv_message_num := Nat.ne_of_lt hlt
  simp [h1, h2]

/-- The skip loop appends exactly the message numbers i, i+1, ..., i+n-1 to
the saved-key dict, provided all previously saved numbers are below i. -/
theorem skip_recv_keys_map_fst (kdf : Bytes → Bytes → Bytes)
    (ck : Bytes) (saved : List (Nat × Bytes)) (i n : Nat)
    (h : ∀ p ∈ saved, p.1 < i) :
    ((skip_recv_keys kdf ck saved i n).2).map Prod.fst =
      saved.map Prod.fst ++ List.range' i n := by
  induction n generalizing ck saved i with
  | zero => simp [skip_recv_keys]
  | succ n ih =>
    have hfresh : i ∉ saved.map Prod.fst := by
      intro hm
      rcases List.mem_map.1 hm with ⟨p, hp, hpi⟩
      exact absurd (hpi ▸ h p hp) (lt_irrefl i)
    have hins := insertD_fresh
      ((kdf_ratchet kdf ck (strBytes "recv_" ++ natDigits i)).2) hfresh
    show ((skip_recv_keys kdf _ (insertD saved i _) (i + 1) n).2).map Prod.fst = _
    rw [ih _ _ _ ?_]
    · rw [hins, List.range'_succ]
      simp
    · rw [hins]
      intro p hp
      rcases List.mem_append.1 hp with hp | hp
      · exact Nat.lt_succ_of_lt (h p hp)
      · simp only [List.mem_singleton] at hp
        subst hp
        exact Nat.lt_succ_self i

/-- Reachability invariant of a DoubleRatchet: every saved (skipped) key
has a message number strictly below the receive counter, and the saved-key
dict holds no duplicate message numbers. -/
def drInv (st : DoubleRatchet) : Prop :=
  (∀ p ∈ st.saved_keys, p.1 < st.recv_message_num) ∧
  (st.saved_keys.map Prod.fst).Nodup

instance (st : DoubleRatchet) : Decidable (drInv st) := by
  unfold drInv
  infer_instance

/-- A freshly initialized ratchet satisfies the invariant. -/
theorem drInv_init (kdf : Bytes → Bytes → Bytes) (ss : Bytes) :
    drInv (DoubleRatchet.init kdf ss) := by
  constructor
  · intro p hp
    simp [DoubleRatchet.init] at hp
  · simp [DoubleRatchet.init]

/-- get_next_recv_key preserves the invariant in every branch. -/
theorem drInv_recv (kdf : Bytes → Bytes → Bytes)
    (st : DoubleRatchet) (msg_num : Nat) (h : drInv st) :
    drInv (st.get_next_recv_key kdf msg_num).2 := by
  obtain ⟨hlt, hnd⟩ := h
  match hlk : lookupD st.saved_keys msg_num with
  | some key =>
    rw [get_next_recv_key_saved kdf st msg_num key hlk]
    dsimp only [drInv]
    refine ⟨?_, ?_⟩
    · intro p hp
      exact hlt p ((eraseD_sublist st.saved_keys msg_num).subset hp)
    · exact hnd.sublist ((eraseD_sublist st.saved_keys msg_num).map Prod.fst)
  | none =>
    rcases Nat.lt_trichotomy st.recv_message_num msg_num with hgt | heq | hlt2
    · rw [get_next_recv_key_skip kdf st msg_num hlk hgt]
      dsimp only [drInv]
      have hmf := skip_recv_keys_map_fst kdf st.recv_chain_key st.saved_keys
        st.recv_message_num (msg_num - st.recv_message_num) hlt
      refine ⟨?_, ?_⟩
      · intro p hp
        have hm1 : p.1 ∈ (skip_recv_keys kdf st.recv_chain_key st.saved_keys
            st.recv_message_num (msg_num - st.recv_message_num)).2.map Prod.fst :=
          List.mem_map_of_mem Prod.fst hp
        rw [hmf] at hm1
        rcases List.mem_append.1 hm1 with hm | hm
        · rcases List.mem_map.1 hm with ⟨q, hq, hqe⟩
          have := hlt q hq
          omega
        · have := List.mem_range'_1.1 hm
          omega
      · rw [hmf, List.nodup_append]
        refine ⟨hnd, List.nodup_range' _ _, ?_⟩
        intro a ha hr
        have h1 : a < st.recv_message_num := by
          rcases List.mem_map.1 ha with ⟨q, hq, hqe⟩
          exact hqe ▸ hlt q hq
        have h2 := List.mem_range'_1.1 hr
        omega
    · rw [get_next_recv_key_inorder kdf st msg_num hlk heq.symm]
      dsimp only [drInv]
      refine ⟨?_, hnd⟩
      intro p hp
      exact Nat.lt_succ_of_lt (heq ▸ hlt p hp)
    · rw [get_next_recv_key_expired kdf st msg_num hlk hlt2]
      exact ⟨hlt, hnd⟩

/-! ### Claim C4: skipped-key bound

The specification demands MAX_SKIP = 1000 with a TooManySkipped error; the
source has no bound at all. -/

/-- C4 (amended): the code never refuses a skip.  On a fresh receive chain
(no saved keys, receive counter 0), get_next_recv_key for message number
n > 0 succeeds, stores exactly the n skipped keys 0..n-1 and advances the
receive counter to n + 1 — there is no MAX_SKIP bound and no TooManySkipped
error anywhere in the code. -/
theorem dr_recv_skip_unbounded (kdf : Bytes → Bytes → Bytes)
    (st : DoubleRatchet) (n : Nat)
    (hsaved : st.saved_keys = []) (hnum : st.recv_message_num = 0)
    (hpos : 0 < n) :
    (∃ k, (st.get_next_recv_key kdf n).1 = .ok k) ∧
    ((st.get_next_recv_key kdf n).2.saved_keys.map Prod.fst = List.range' 0 n) ∧
    (st.get_next_recv_key kdf n).2.recv_message_num = n + 1 := by
  have hlk : lookupD st.saved_keys n = none := by
    rw [hsaved]
    rfl
  have hgt : n > st.recv_message_num := by omega
  rw [get_next_recv_key_skip kdf st n hlk hgt]
  dsimp only
  refine ⟨⟨_, rfl⟩, ?_, rfl⟩
  have hfst := skip_recv_keys_map_fst kdf st.recv_chain_key st.saved_keys
    st.recv_message_num (n - st.recv_message_num) (by simp [hsaved])
  rw [hfst, hsaved, hnum]
  simp

/-- C4 counterexample: on a fresh chain (with the shared secret used by the
repository test suite and the real HKDF-SHA256 derivation), a receive for
message number 2000 is not refused: it succeeds, stores 2000 skipped keys —
double the claimed MAX_SKIP bound — and advances the counter to 2001. -/
theorem dr_recv_2000_skips_stored :
    (∃ k, ((DoubleRatchet.init hkdfSha256
        (strBytes "test_shared_secret_for_ratchet")).get_next_recv_key
        hkdfSha256 2000).1 = .ok k) ∧
    ((DoubleRatchet.init hkdfSha256
        (strBytes "test_shared_secret_for_ratchet")).get_next_recv_key
        hkdfSha256 2000).2.saved_keys.length = 2000 ∧
    ((DoubleRatchet.init hkdfSha256
        (strBytes "test_shared_secret_for_ratchet")).get_next_recv_key
        hkdfSha256 2000).2.recv_message_num = 2001 := by
  obtain ⟨h1, h2, h3⟩ := dr_recv_skip_unbounded hkdfSha256
    (DoubleRatchet.init hkdfSha256 (strBytes "test_shared_secret_for_ratchet"))
    2000 rfl rfl (by omega)
  refine ⟨h1, ?_, h3⟩
  have hlen := congrArg List.length h2
  simpa using hlen

/-- Witness for dr_recv_skip_unbounded at n = 3 on a concrete fresh ratchet. -/
theorem dr_recv_skip_unbounded_witness :
    (∃ k, ((DoubleRatchet.init hkdfSha256 [1, 2, 3]).get_next_recv_key
        hkdfSha256 3).1 = .ok k) ∧
    (((DoubleRatchet.init hkdfSha256 [1, 2, 3]).get_next_recv_key
        hkdfSha256 3).2.saved_keys.map Prod.fst = List.range' 0 3) ∧
    ((DoubleRatchet.init hkdfSha256 [1, 2, 3]).get_next_recv_key
        hkdfSha256 3).2.recv_message_num = 3 + 1 :=
  dr_recv_skip_unbounded hkdfSha256
    (DoubleRatchet.init hkdfSha256 [1, 2, 3]) 3 rfl rfl (by omega)

/-! ### Claim C5: replay of a consumed message key -/

/-- C5: once a message number has been successfully consumed (whether from
the saved out-of-order keys, by skipping forward, or in order), a second
call for the same message number raises the expired-message error and
leaves the ratchet state — receive counter, chain keys and saved keys —
entirely unchanged.  The invariant drInv holds for every reachable state
(drInv_init, drInv_recv). -/
theorem dr_replay_rejected (kdf : Bytes → Bytes → Bytes)
    (st : DoubleRatchet) (msg_num : Nat) (hinv : drInv st)
    (hok : ((st.get_next_recv_key kdf msg_num).1).isOk = true) :
    ((st.get_next_recv_key kdf msg_num).2).get_next_recv_key kdf msg_num =
      (.error .expired, (st.get_next_recv_key kdf msg_num).2) := by
  obtain ⟨hlt, hnd⟩ := hinv
  match hlk : lookupD st.saved_keys msg_num with
  | some key =>
    have hmem : msg_num ∈ st.saved_keys.map Prod.fst :=
      mem_of_lookupD_isSome (by rw [hlk]; rfl)
    have hnum : msg_num < st.recv_message_num := by
      rcases List.mem_map.1 hmem with ⟨q, hq, hqe⟩
      exact hqe ▸ hlt q hq
    rw [get_next_recv_key_saved kdf st msg_num key hlk]
    dsimp only
    exact get_next_recv_key_expired kdf _ msg_num
      (eraseD_lookup_none msg_num hnd) hnum
  | none =>
    rcases Nat.lt_trichotomy st.recv_message_num msg_num with hgt | heq | hlt2
    · rw [get_next_recv_key_skip kdf st msg_num hlk hgt]
      dsimp only
      refine get_next_recv_key_expired kdf _ msg_num ?_ (Nat.lt_succ_self _)
      rw [lookupD_eq_none_iff]
      rw [skip_recv_keys_map_fst kdf st.recv_chain_key st.saved_keys
        st.recv_message_num (msg_num - st.recv_message_num) hlt]
      intro hm
      rcases List.mem_append.1 hm with hm | hm
      · exact absurd ((lookupD_eq_none_iff _ _).1 hlk) (fun hn => hn hm)
      · have := List.mem_range'_1.1 hm
        omega
    · rw [get_next_recv_key_inorder kdf st msg_num hlk heq.symm]
      dsimp only
      refine get_next_recv_key_expired kdf _ msg_num ?_ (Nat.lt_succ_self _)
      rw [lookupD_eq_none_iff]
      intro hm
      rcases List.mem_map.1 hm with ⟨q, hq, hqe⟩
      have := hlt q hq
      omega
    · rw [get_next_recv_key_expired kdf st msg_num hlk hlt2] at hok ⊢
      simp [Except.isOk, Except.toBool] at hok

/-- Witness for dr_replay_rejected: a fresh ratchet over the repository
test secret, first receive of message 0 succeeds, the replay raises and
leaves the state unchanged. -/
theorem dr_replay_rejected_witness :
    drInv (DoubleRatchet.init hkdfSha256
      (strBytes "test_shared_secret_for_ratchet")) ∧
    ((((DoubleRatchet.init hkdfSha256
        (strBytes "test_shared_secret_for_ratchet")).get_next_recv_key
        hkdfSha256 0).1).isOk = true) ∧
    (((DoubleRatchet.init hkdfSha256
        (strBytes "test_shared_secret_for_ratchet")).get_next_recv_key
        hkdfSha256 0).2).get_next_recv_key hkdfSha256 0 =
      (.error .expired,
       ((DoubleRatchet.init hkdfSha256
        (strBytes "test_shared_secret_for_ratchet")).get_next_recv_key
        hkdfSha256 0).2) :=
  ⟨by decide, by decide,
   dr_replay_rejected hkdfSha256
     (DoubleRatchet.init hkdfSha256 (strBytes "test_shared_secret_for_ratchet"))
     0 (by decide) (by decide)⟩

/-! ### Claim C1: end-to-end message round trip

encrypt_message seals with a key from the send chain, whose chain key is
hkdf(root, "send_chain_key") and whose per-message labels are "send_N";
decrypt_message derives its key from the receive chain, whose chain key is
hkdf(root, "recv_chain_key") with labels "recv_N".  Even when both peers
hold the same shared secret, the two derivations disagree, so the
receiver's SecretBox key differs from the sender's and decryption of the
first message fails instead of returning the plaintext. -/

/-- The shared secret used by the repository test suite
(tests/test_secure_architecture.py). -/
def testSecret : Bytes := strBytes "test_shared_secret_for_ratchet"

/-- hkdf(test secret, "root_key"), evaluated. -/
def c1rootK : Bytes := [135, 224, 157, 111, 11, 209, 70, 42, 98, 59, 209, 186, 11, 110, 245, 64, 57, 140, 226, 250, 136, 3, 154, 73, 73, 176, 195, 244, 217, 198, 23, 115]

/-- hkdf(root key, "send_chain_key"), evaluated. -/
def c1sendCK : Bytes := [136, 155, 246, 59, 52, 42, 16, 216, 121, 219, 170, 210, 168, 215, 115, 5, 61, 177, 246, 243, 15, 61, 44, 8, 72, 45, 145, 149, 249, 82, 193, 155]

/-- hkdf(root key, "recv_chain_key"), evaluated. -/
def c1recvCK : Bytes := [5, 89, 6, 170, 176, 250, 243, 108, 249, 180, 145, 240, 97, 29, 87, 131, 168, 71, 37, 104, 52, 28, 96, 220, 222, 161, 211, 161, 96, 197, 107, 121]

/-- hkdf(send chain key, "send_0_output"), evaluated. -/
def c1sendK0 : Bytes := [164, 162, 63, 202, 216, 107, 48, 21, 62, 242, 104, 6, 175, 176, 102, 108, 215, 123, 50, 216, 229, 122, 13, 39, 202, 85, 27, 40, 200, 143, 18, 83]

/-- hkdf(recv chain key, "recv_0_output"), evaluated. -/
def c1recvK0 : Bytes := [195, 25, 247, 41, 96, 235, 12, 172, 60, 190, 133, 5, 59, 18, 28, 115, 33, 203, 10, 83, 23, 97, 35, 222, 4, 160, 159, 81, 103, 185, 193, 75]

set_option maxRecDepth 8000 in
theorem c1_hkdf_root :
    hkdfSha256 testSecret (strBytes "root_key") = c1rootK := by decide

set_option maxRecDepth 8000 in
theorem c1_hkdf_sendCK :
    hkdfSha256 c1rootK (strBytes "send_chain_key") = c1sendCK := by decide

set_option maxRecDepth 8000 in
theorem c1_hkdf_recvCK :
    hkdfSha256 c1rootK (strBytes "recv_chain_key") = c1recvCK := by decide

set_option maxRecDepth 8000 in
theorem c1_hkdf_sendK0 :
    hkdfSha256 c1sendCK (strBytes "send_" ++ natDigits 0 ++ strBytes "_output") =
      c1sendK0 := by decide

set_option maxRecDepth 8000 in
theorem c1_hkdf_recvK0 :
    hkdfSha256 c1recvCK (strBytes "recv_" ++ natDigits 0 ++ strBytes "_output") =
      c1recvK0 := by decide

/-- The sender's first message key, step by step through the chain. -/
theorem c1_send_key_eq :
    ((DoubleRatchet.init hkdfSha256 testSecret).get_next_send_key
        hkdfSha256).1.1 = c1sendK0 := by
  show hkdfSha256 (hkdfSha256 (hkdfSha256 testSecret (strBytes "root_key"))
      (strBytes "send_chain_key"))
      (strBytes "send_" ++ natDigits 0 ++ strBytes "_output") = c1sendK0
  rw [c1_hkdf_root, c1_hkdf_sendCK, c1_hkdf_sendK0]

/-- The receiver's key for message number 0, step by step through the chain. -/
theorem c1_recv_key_eq :
    ((DoubleRatchet.init hkdfSha256 testSecret).get_next_recv_key
        hkdfSha256 0).1 = Except.ok c1recvK0 := by
  show Except.ok (hkdfSha256 (hkdfSha256 (hkdfSha256 testSecret
      (strBytes "root_key")) (strBytes "recv_chain_key"))
      (strBytes "recv_" ++ natDigits 0 ++ strBytes "_output")) =
    Except.ok c1recvK0
  rw [c1_hkdf_root, c1_hkdf_recvCK, c1_hkdf_recvK0]

/-- C1: with both DoubleRatchets initialized from the identical shared
secret used in the repository test suite, the receiver's message key for
message number 0 exists but differs from the sender's message key for
message number 0 (concrete HKDF-SHA256 evaluation). -/
theorem dr_send_recv_key_mismatch :
    (((DoubleRatchet.init hkdfSha256 testSecret).get_next_recv_key
        hkdfSha256 0).1).isOk = true ∧
    ((DoubleRatchet.init hkdfSha256 testSecret).get_next_send_key
        hkdfSha256).1.1 ≠
      (((DoubleRatchet.init hkdfSha256 testSecret).get_next_recv_key
        hkdfSha256 0).1.toOption.getD []) := by
  constructor
  · rw [c1_recv_key_eq]
    rfl
  · rw [c1_send_key_eq, c1_recv_key_eq]
    decide

/-! ### X3DH key agreement (src/crypto/advanced_crypto_manager.py)

X3DHKeyManager.initiate_key_exchange and respond_to_key_exchange.  The
Curve25519 operations PrivateKey.public_key and crypto_scalarmult are the
parameters `pub` and `scalarmult`; the ephemeral private key generated by
the initiator is passed explicitly. -/

/-- X3DHKeyManager.initiate_key_exchange: returns (ephemeral public key,
derived shared secret). -/
def initiate_key_exchange
    (scalarmult : Bytes → Bytes → Bytes) (pub : Bytes → Bytes)
    (kdf : Bytes → Bytes → Bytes)
    (identity_private_key ephemeral_private_key : Bytes)
    (peer_identity_key peer_signed_prekey : Bytes)
    (peer_one_time_prekey : Option Bytes) : Bytes × Bytes :=
  let dh1 := scalarmult ephemeral_private_key peer_identity_key
  let dh2 := scalarmult identity_private_key peer_signed_prekey
  let dh3 := peer_one_time_prekey.map (scalarmult ephemeral_private_key)
  let ik_spk := scalarmult identity_private_key peer_signed_prekey
  let dh_input := dh1 ++ dh2 ++ dh3.getD [] ++ ik_spk
  (pub ephemeral_private_key, kdf dh_input (strBytes "x3dh_key_derivation"))

/-- X3DHKeyManager.respond_to_key_exchange.  Note two properties of the
source faithfully reproduced here: the decoded peer identity key is never
used in any DH computation, and the "ik_spk" term wraps the signed-prekey
PRIVATE bytes as if they were a public key (PublicKey(signed_prekey_private)). -/
def respond_to_key_exchange
    (scalarmult : Bytes → Bytes → Bytes)
    (kdf : Bytes → Bytes → Bytes)
    (identity_private_key ephemeral_public_key : Bytes)
    (peer_identity_key : Bytes)
    (signed_prekey_private : Bytes)
    (one_time_prekey_private : Option Bytes) : Bytes :=
  let _peer_ik := peer_identity_key
  let dh1 := scalarmult signed_prekey_private ephemeral_public_key
  let dh2 := scalarmult identity_private_key ephemeral_public_key
  let dh3 := one_time_prekey_private.map
    (fun opk => scalarmult opk ephemeral_public_key)
  let ik_spk := scalarmult identity_private_key signed_prekey_private
  let dh_input := dh1 ++ dh2 ++ dh3.getD [] ++ ik_spk
  kdf dh_input (strBytes "x3dh_key_derivation")

/-- The responder-side derivation does not depend on the peer identity key
at all: the source decodes it into a local variable and never uses it.  A
correct X3DH responder must mix DH(SPK_B, IK_A) into the secret. -/
theorem respond_ignores_peer_identity
    (scalarmult : Bytes → Bytes → Bytes) (kdf : Bytes → Bytes → Bytes)
    (idk eph ika1 ika2 spk : Bytes) (opk : Option Bytes) :
    respond_to_key_exchange scalarmult kdf idk eph ika1 spk opk =
      respond_to_key_exchange scalarmult kdf idk eph ika2 spk opk := rfl

/-! Toy Diffie-Hellman instance used for concrete counterexamples: group
elements are 32-byte little-endian encodings of naturals modulo the prime
1019 with generator 2; scalarmult a B = B^a mod 1019.  It satisfies the
same commutativity law DH(a, pub b) = DH(b, pub a) as Curve25519, which is
the only property an honest key agreement may rely on. -/

/-- Little-endian 32-byte encoding of a natural number (as Curve25519
public keys are 32-byte strings). -/
def encNat (n : Nat) : Bytes := (List.range 32).map (fun i => n / 256 ^ i % 256)

/-- Little-endian decoding. -/
def decNat (b : Bytes) : Nat := b.foldr (fun x acc => acc * 256 + x) 0

/-- Toy scalar multiplication: exponentiation in the group Z/1019. -/
def toyMul (a B : Bytes) : Bytes := encNat ((decNat B) ^ (decNat a) % 1019)

/-- Toy public key derivation from the generator 2. -/
def toyPub (a : Bytes) : Bytes := toyMul a (encNat 2)

/-- The concatenated DH input the initiator feeds to HKDF in the run below,
evaluated in the toy group. -/
def x3dhIkmA : Bytes := [232, 3, 0, 0, 0, 0, 0, 0, 0, 0, 0, 0, 0, 0, 0, 0, 0, 0, 0, 0, 0, 0, 0, 0, 0, 0, 0, 0, 0, 0, 0, 0, 5, 0, 0, 0, 0, 0, 0, 0, 0, 0, 0, 0, 0, 0, 0, 0, 0, 0, 0, 0, 0, 0, 0, 0, 0, 0, 0, 0, 0, 0, 0, 0, 41, 2, 0, 0, 0, 0, 0, 0, 0, 0, 0, 0, 0, 0, 0, 0, 0, 0, 0, 0, 0, 0, 0, 0, 0, 0, 0, 0, 0, 0, 0, 0, 5, 0, 0, 0, 0, 0, 0, 0, 0, 0, 0, 0, 0, 0, 0, 0, 0, 0, 0, 0, 0, 0, 0, 0, 0, 0, 0, 0, 0, 0, 0, 0]

/-- The concatenated DH input the responder feeds to HKDF in the same run. -/
def x3dhIkmB : Bytes := [138, 0, 0, 0, 0, 0, 0, 0, 0, 0, 0, 0, 0, 0, 0, 0, 0, 0, 0, 0, 0, 0, 0, 0, 0, 0, 0, 0, 0, 0, 0, 0, 232, 3, 0, 0, 0, 0, 0, 0, 0, 0, 0, 0, 0, 0, 0, 0, 0, 0, 0, 0, 0, 0, 0, 0, 0, 0, 0, 0, 0, 0, 0, 0, 41, 2, 0, 0, 0, 0, 0, 0, 0, 0, 0, 0, 0, 0, 0, 0, 0, 0, 0, 0, 0, 0, 0, 0, 0, 0, 0, 0, 0, 0, 0, 0, 125, 0, 0, 0, 0, 0, 0, 0, 0, 0, 0, 0, 0, 0, 0, 0, 0, 0, 0, 0, 0, 0, 0, 0, 0, 0, 0, 0, 0, 0, 0, 0]

/-- hkdf(initiator DH input, "x3dh_key_derivation"), evaluated. -/
def x3dhSsA : Bytes := [92, 195, 191, 222, 191, 179, 0, 231, 227, 95, 212, 184, 175, 18, 178, 167, 208, 210, 28, 147, 82, 111, 14, 213, 10, 215, 86, 22, 130, 130, 139, 117]

/-- hkdf(responder DH input, "x3dh_key_derivation"), evaluated. -/
def x3dhSsB : Bytes := [138, 52, 238, 76, 146, 204, 23, 83, 24, 35, 140, 242, 142, 16, 235, 253, 7, 204, 114, 197, 5, 2, 1, 220, 42, 17, 97, 171, 187, 131, 138, 175]

/-- The initiator's DH concatenation in the toy-group run, evaluated. -/
theorem x3dh_ikmA_eq :
    toyMul (encNat 11) (toyPub (encNat 3)) ++
      toyMul (encNat 2) (toyPub (encNat 5)) ++
      (((some (toyPub (encNat 7))).map (toyMul (encNat 11))).getD []) ++
      toyMul (encNat 2) (toyPub (encNat 5)) = x3dhIkmA := by decide

/-- The responder's DH concatenation in the same run, evaluated. -/
theorem x3dh_ikmB_eq :
    toyMul (encNat 5) (toyPub (encNat 11)) ++
      toyMul (encNat 3) (toyPub (encNat 11)) ++
      (((some (encNat 7)).map
        (fun opk => toyMul opk (toyPub (encNat 11)))).getD []) ++
      toyMul (encNat 3) (encNat 5) = x3dhIkmB := by decide

set_option maxRecDepth 8000 in
theorem x3dh_hkdf_A :
    hkdfSha256 x3dhIkmA (strBytes "x3dh_key_derivation") = x3dhSsA := by decide

set_option maxRecDepth 8000 in
theorem x3dh_hkdf_B :
    hkdfSha256 x3dhIkmB (strBytes "x3dh_key_derivation") = x3dhSsB := by decide

/-- C2: an honest matched X3DH run where both sides use the same bundle —
initiator A holds identity scalar 2 and ephemeral scalar 11, responder B
holds identity scalar 3, signed-prekey scalar 5 and one-time-prekey scalar
7, and A is given exactly B's public keys while B is given A's ephemeral
public key and identity public key — derives DIFFERENT shared secrets on
the two sides (concrete evaluation through HKDF-SHA256). -/
theorem x3dh_shared_secret_mismatch :
    (initiate_key_exchange toyMul toyPub hkdfSha256
        (encNat 2) (encNat 11) (toyPub (encNat 3)) (toyPub (encNat 5))
        (some (toyPub (encNat 7)))).2 ≠
      respond_to_key_exchange toyMul hkdfSha256
        (encNat 3) (toyPub (encNat 11)) (toyPub (encNat 2))
        (encNat 5) (some (encNat 7)) := by
  show hkdfSha256
      (toyMul (encNat 11) (toyPub (encNat 3)) ++
        toyMul (encNat 2) (toyPub (encNat 5)) ++
        (((some (toyPub (encNat 7))).map (toyMul (encNat 11))).getD []) ++
        toyMul (encNat 2) (toyPub (encNat 5)))
      (strBytes "x3dh_key_derivation") ≠
    hkdfSha256
      (toyMul (encNat 5) (toyPub (encNat 11)) ++
        toyMul (encNat 3) (toyPub (encNat 11)) ++
        (((some (encNat 7)).map
          (fun opk => toyMul opk (toyPub (encNat 11)))).getD []) ++
        toyMul (encNat 3) (encNat 5))
      (strBytes "x3dh_key_derivation")
  rw [x3dh_ikmA_eq, x3dh_ikmB_eq, x3dh_hkdf_A, x3dh_hkdf_B]
  decide

/-! ### Traffic obfuscation (src/network/tls_protocol.py, ObfuscatedProtocol)

The random choices drawn inside the Python methods (prefix, suffix and
trailing padding bytes) are passed explicitly; the source draws the prefix
and suffix lengths uniformly from [5, 50] and the HTTP trailing padding
length from [10, 100]. -/

/-- Decode big-endian bytes to a natural number (struct.unpack). -/
def fromBytesBE (b : Bytes) : Nat := b.foldl (fun acc x => acc * 256 + x) 0

/-- ObfuscatedProtocol._websocket_obfuscation. -/
def websocket_obfuscation (data : Bytes) : Bytes :=
  [129] ++
  (if data.length ≤ 125 then [data.length]
   else if data.length ≤ 65535 then [126] ++ toBytesBE 2 data.length
   else [127] ++ toBytesBE 8 data.length) ++
  data

/-- The HTTP-looking header block produced by
ObfuscatedProtocol._http_padding_obfuscation for a body of n bytes. -/
def http_headers (n : Nat) : Bytes :=
  strBytes "POST /api/messages HTTP/1.1\r\nHost: example.com\r\nUser-Agent: Mozilla/5.0 (compatible; P2P-Client)\r\nContent-Type: application/json\r\nContent-Length: " ++
  natDigits n ++ strBytes "\r\nConnection: keep-alive\r\n\r\n"

/-- ObfuscatedProtocol._http_padding_obfuscation with explicit padding. -/
def http_padding_obfuscation (data pad : Bytes) : Bytes :=
  http_headers data.length ++ data ++ pad

/-- ObfuscatedProtocol._random_padding_obfuscation with explicit prefix and
suffix padding. -/
def random_padding_obfuscation (data pre suf : Bytes) : Bytes :=
  toBytesBE 4 (pre ++ data ++ suf).length ++ (pre ++ data ++ suf)

/-- The random values drawn during obfuscation. -/
structure ObfRandomness where
  pre : Bytes
  suf : Bytes
  pad : Bytes

/-- ObfuscatedProtocol.obfuscate: dispatch on the method name; an unknown
method falls back to random padding. -/
def obfuscate (method : String) (r : ObfRandomness) (data : Bytes) : Bytes :=
  if method = "websocket" then websocket_obfuscation data
  else if method = "http_padding" then http_padding_obfuscation data r.pad
  else if method = "random_padding" then random_padding_obfuscation data r.pre r.suf
  else random_padding_obfuscation data r.pre r.suf

/-- The error raised by deobfuscate when a random-padding frame is shorter
than its 4-byte length header. -/
inductive DeobfError where
  | tooShort : DeobfError
deriving DecidableEq

/-- Scan for the first occurrence of CRLF CRLF (bytes.find in the source). -/
def findCRLF2 : Bytes → Option Nat
  | 13 :: 10 :: 13 :: 10 :: _ => some 0
  | _ :: rest => (findCRLF2 rest).map (· + 1)
  | [] => none

/-- ObfuscatedProtocol.deobfuscate.  In the websocket branch the source
computes payload_len = data[1] & 0x7F and an offset of 4, 10 or 2 bytes. -/
def deobfuscate (method : String) (data : Bytes) : Except DeobfError Bytes :=
  if method = "random_padding" then
    if data.length < 4 then .error .tooShort
    else .ok ((data.drop 4).take (fromBytesBE (data.take 4)))
  else if method = "websocket" then
    if data.length < 2 then .ok data
    else .ok (data.drop (
      if data.getD 1 0 &&& 127 = 126 then 4
      else if data.getD 1 0 &&& 127 = 127 then 10 else 2))
  else if method = "http_padding" then
    match findCRLF2 data with
    | some header_end => .ok (data.drop (header_end + 4))
    | none => .ok data
  else .ok data

instance {ε α : Type} [DecidableEq ε] [DecidableEq α] :
    DecidableEq (Except ε α) := fun a b =>
  match a, b with
  | .ok x, .ok y =>
    if h : x = y then isTrue (by rw [h])
    else isFalse (fun hc => by cases hc; exact h rfl)
  | .error x, .error y =>
    if h : x = y then isTrue (by rw [h])
    else isFalse (fun hc => by cases hc; exact h rfl)
  | .ok _, .error _ => isFalse (fun hc => by cases hc)
  | .error _, .ok _ => isFalse (fun hc => by cases hc)

/-- C3 counterexample: for the random-padding method with payload [1] and
the minimal legal padding (5 prefix bytes and 5 suffix bytes of value 9),
deobfuscate returns the padding together with the payload, not the
payload: the round trip fails. -/
theorem random_padding_roundtrip_fails :
    deobfuscate "random_padding"
      (obfuscate "random_padding"
        ⟨List.replicate 5 9, List.replicate 5 9, []⟩ [1]) =
      .ok [9, 9, 9, 9, 9, 1, 9, 9, 9, 9, 9] ∧
    deobfuscate "random_padding"
      (obfuscate "random_padding"
        ⟨List.replicate 5 9, List.replicate 5 9, []⟩ [1]) ≠ .ok [1] := by
  constructor
  · decide
  · decide

theorem toBytesBE_two (x : Nat) : toBytesBE 2 x = [x / 256 % 256, x % 256] := by
  simp [toBytesBE, List.range_succ]

/-- deobfuscate with the websocket method, spelled on the branch shape. -/
theorem deobfuscate_websocket (data : Bytes) :
    deobfuscate "websocket" data =
      (if data.length < 2 then .ok data
       else .ok (data.drop (
         if data.getD 1 0 &&& 127 = 126 then 4
         else if data.getD 1 0 &&& 127 = 127 then 10 else 2))) := by
  unfold deobfuscate
  rw [if_neg (by decide : ¬ ("websocket" = "random_padding")), if_pos rfl]

/-- C3 (amended): the round trip deobfuscate(obfuscate(x, m), m) = x holds
for the websocket method for every payload of at most 65535 bytes (and for
no payload at all for the two padding methods, whose padding draws are
never empty — see the counterexample). -/
theorem websocket_roundtrip (r : ObfRandomness) (data : Bytes)
    (h : data.length ≤ 65535) :
    deobfuscate "websocket" (obfuscate "websocket" r data) = .ok data := by
  rw [show obfuscate "websocket" r data = websocket_obfuscation data from
    by unfold obfuscate; rw [if_pos rfl]]
  unfold websocket_obfuscation
  by_cases h125 : data.length ≤ 125
  · rw [if_pos h125,
       show [129] ++ [data.length] ++ data = 129 :: data.length :: data from rfl,
       deobfuscate_websocket]
    rw [if_neg (by simp : ¬ ((129 :: data.length :: data).length < 2))]
    rw [show (129 :: data.length :: data).getD 1 0 = data.length from rfl]
    have hand : data.length &&& 127 = data.length := by
      have hm := Nat.and_pow_two_sub_one_eq_mod data.length 7
      rw [Nat.mod_eq_of_lt (by omega : data.length < 2 ^ 7)] at hm
      exact hm
    rw [hand, if_neg (by omega : ¬ data.length = 126),
       if_neg (by omega : ¬ data.length = 127)]
    rfl
  · rw [if_neg h125, if_pos h, toBytesBE_two,
       show [129] ++ ([126] ++ [data.length / 256 % 256, data.length % 256]) ++ data
          = 129 :: 126 :: data.length / 256 % 256 :: data.length % 256 :: data from rfl,
       deobfuscate_websocket]
    rw [if_neg (by simp :
        ¬ ((129 :: 126 :: data.length / 256 % 256 :: data.length % 256 :: data).length < 2))]
    rw [show (129 :: 126 :: data.length / 256 % 256 :: data.length % 256 :: data).getD 1 0
        = 126 from rfl]
    rw [if_pos (by decide : (126 : Nat) &&& 127 = 126)]
    rfl

/-- Witness for websocket_roundtrip on the payload [1, 2, 3]. -/
theorem websocket_roundtrip_witness :
    deobfuscate "websocket" (obfuscate "websocket" ⟨[], [], []⟩ [1, 2, 3]) =
      .ok [1, 2, 3] :=
  websocket_roundtrip ⟨[], [], []⟩ [1, 2, 3] (by decide)

/-! ### Node identifier (src/crypto/advanced_crypto_manager.py, lines 219-221)

AdvancedCryptoManager.__init__ computes
node_id = hashlib.sha256(identity_pub_bytes).hexdigest()[:16]. -/

/-- Lowercase hexadecimal digit (ASCII code). -/
def hexDigit (n : Nat) : Nat := if n < 10 then 48 + n else 87 + n

/-- Two hexadecimal digits of one byte. -/
def hexByte (b : Nat) : Bytes := [hexDigit (b / 16), hexDigit (b % 16)]

/-- hashlib hexdigest of a digest, as ASCII bytes. -/
def hexdigest (h : Bytes) : Bytes := h.flatMap hexByte

/-- SHA-256 hexdigest of a message. -/
def sha256hex (msg : Bytes) : Bytes := hexdigest (sha256 msg)

/-- The node identifier computed by AdvancedCryptoManager.__init__:
the hexdigest of SHA-256 of the identity public key, truncated to its
first 16 characters. -/
def node_id_of (identity_pub : Bytes) : Bytes := (sha256hex identity_pub).take 16

theorem stateBytes_length (s : Sha256State) : (stateBytes s).length = 32 := by
  simp [stateBytes, toBytesBE]

theorem sha256_length (msg : Bytes) : (sha256 msg).length = 32 := by
  unfold sha256
  exact stateBytes_length _

theorem hexdigest_length (h : Bytes) : (hexdigest h).length = 2 * h.length := by
  induction h with
  | nil => rfl
  | cons b rest ih =>
    simp only [hexdigest, List.flatMap_cons, List.length_append] at *
    simp [hexByte, ih]
    omega

/-- C6 (amended): the NodeId the node uses everywhere is the 16-character
(64-bit) truncation of the SHA-256 hexdigest of the identity public key —
not the full 256-bit hash: the full hexdigest always has 64 characters and
never equals the stored node_id. -/
theorem node_id_truncated (identity_pub : Bytes) :
    node_id_of identity_pub = (sha256hex identity_pub).take 16 ∧
    (sha256hex identity_pub).length = 64 ∧
    node_id_of identity_pub ≠ sha256hex identity_pub := by
  have hlen : (sha256hex identity_pub).length = 64 := by
    unfold sha256hex
    rw [hexdigest_length, sha256_length]
  refine ⟨rfl, hlen, ?_⟩
  intro hco
  have h16 : (node_id_of identity_pub).length = 16 := by
    unfold node_id_of
    rw [List.length_take, hlen]
    decide
  rw [hco, hlen] at h16
  omega

/-- C6 counterexample: for the all-zero 32-byte identity public key, the
node_id in use is not the full SHA-256 hexdigest (it is its 16-character
truncation). -/
theorem node_id_not_full_hash_at_zero :
    node_id_of (List.replicate 32 0) ≠ sha256hex (List.replicate 32 0) := by
  decide

/-! ### AdvancedCryptoManager and the prekey store
(src/crypto/advanced_crypto_manager.py)

The random key material generated in the constructors (identity key,
signed prekey, the pool of 5 one-time prekeys) is passed in as the initial
X3DHKeyManager state.  The public halves stored by the Python constructor
are recomputed on demand through the parameter pub.  Base64 transport
encoding is omitted (it is a bijection applied at the call boundary). -/

structure X3DHKeyManager where
  identity_private_key : Bytes
  signed_prekey : Bytes
  one_time_prekeys : List Bytes
deriving DecidableEq

/-- X3DHKeyManager.get_identity_public_key. -/
def X3DHKeyManager.get_identity_public_key (pub : Bytes → Bytes)
    (m : X3DHKeyManager) : Bytes := pub m.identity_private_key

/-- X3DHKeyManager.get_signed_prekey_public. -/
def X3DHKeyManager.get_signed_prekey_public (pub : Bytes → Bytes)
    (m : X3DHKeyManager) : Bytes := pub m.signed_prekey

/-- X3DHKeyManager.get_one_time_prekey_publics: returns the public half of
every key in the pool; nothing is popped or marked used. -/
def X3DHKeyManager.get_one_time_prekey_publics (pub : Bytes → Bytes)
    (m : X3DHKeyManager) : List Bytes := m.one_time_prekeys.map pub

/-- X3DHKeyManager._sign_prekey: sha256(SPK_pub || IK_priv). -/
def X3DHKeyManager.sign_prekey (pub : Bytes → Bytes)
    (m : X3DHKeyManager) : Bytes :=
  sha256 (pub m.signed_prekey ++ m.identity_private_key)

structure RatchetKeyManager where
  shared_secret : Bytes
  double_ratchet : DoubleRatchet
  send_message_num : Nat
  recv_message_num : Nat
deriving DecidableEq

/-- RatchetKeyManager.__init__(shared_secret). -/
def RatchetKeyManager.init (kdf : Bytes → Bytes → Bytes) (ss : Bytes) :
    RatchetKeyManager :=
  ⟨ss, DoubleRatchet.init kdf ss, 0, 0⟩

structure AdvancedCryptoManager where
  x3dh_manager : X3DHKeyManager
  ratchet_managers : List (String × RatchetKeyManager)
  session_counter : Nat
  node_id : Bytes
deriving DecidableEq

/-- AdvancedCryptoManager.__init__ with the generated X3DH key material. -/
def AdvancedCryptoManager.init (pub : Bytes → Bytes)
    (x3dh : X3DHKeyManager) : AdvancedCryptoManager :=
  ⟨x3dh, [], 0, node_id_of (x3dh.get_identity_public_key pub)⟩

/-- The one-time prekey private key selected by respond_to_session_request:
always the first of the pool if the pool is nonempty (lines 276-278). -/
def AdvancedCryptoManager.selected_opk (m : AdvancedCryptoManager) :
    Option Bytes := m.x3dh_manager.one_time_prekeys.head?

/-- AdvancedCryptoManager.respond_to_session_request: run the responder
X3DH with the own signed-prekey private key and the selected one-time
prekey, store a new RatchetKeyManager under a fresh session id. -/
def AdvancedCryptoManager.respond_to_session_request
    (scalarmult : Bytes → Bytes → Bytes) (kdf : Bytes → Bytes → Bytes)
    (m : AdvancedCryptoManager)
    (eph_pub peer_identity_key _peer_signed_prekey : Bytes) :
    String × AdvancedCryptoManager :=
  let signed_prekey_private := m.x3dh_manager.signed_prekey
  let shared_secret := respond_to_key_exchange scalarmult kdf
    m.x3dh_manager.identity_private_key eph_pub peer_identity_key
    signed_prekey_private m.selected_opk
  let session_id := "session_" ++ Nat.repr m.session_counter
  (session_id,
   { m with
      ratchet_managers := insertD m.ratchet_managers session_id
        (RatchetKeyManager.init kdf shared_secret),
      session_counter := m.session_counter + 1 })

/-- The encrypted-message dict returned by encrypt_message. -/
structure EncryptedMsg where
  ciphertext : Bytes
  msg_num : Nat
  nonce : Bytes
  timestamp : Nat
deriving DecidableEq

/-- Errors raised by encrypt_message / decrypt_message. -/
inductive SessionError where
  | sessionNotFound : SessionError
  | messageExpired : SessionError
  | decryptFailed : SessionError
deriving DecidableEq

/-- AdvancedCryptoManager.encrypt_message.  The SecretBox construction and
the random nonce are the parameters sealBox and nonce; now is time.time(). -/
def AdvancedCryptoManager.encrypt_message (kdf : Bytes → Bytes → Bytes)
    (sealBox : Bytes → Bytes → Bytes → Bytes) (nonce : Bytes) (now : Nat)
    (m : AdvancedCryptoManager) (session_id : String) (plaintext : Bytes) :
    Except SessionError EncryptedMsg × AdvancedCryptoManager :=
  match lookupD m.ratchet_managers session_id with
  | none => (.error .sessionNotFound, m)
  | some rkm =>
    let r := rkm.double_ratchet.get_next_send_key kdf
    let rkm' := { rkm with
      double_ratchet := r.2
      send_message_num := rkm.send_message_num + 1 }
    (.ok ⟨sealBox r.1.1 nonce plaintext, r.1.2, nonce, now⟩,
     { m with ratchet_managers := insertD m.ratchet_managers session_id rkm' })

/-- AdvancedCryptoManager.decrypt_message.  openBox is SecretBox.decrypt
(failing on a wrong key).  When get_next_recv_key raises, the exception
propagates before any mutation; when openBox fails afterwards, the ratchet
advance already performed persists, as in the Python object. -/
def AdvancedCryptoManager.decrypt_message (kdf : Bytes → Bytes → Bytes)
    (openBox : Bytes → Bytes → Bytes → Except Unit Bytes)
    (m : AdvancedCryptoManager) (session_id : String) (em : EncryptedMsg) :
    Except SessionError Bytes × AdvancedCryptoManager :=
  match lookupD m.ratchet_managers session_id with
  | none => (.error .sessionNotFound, m)
  | some rkm =>
    match rkm.double_ratchet.get_next_recv_key kdf em.msg_num with
    | (.error _, _) => (.error .messageExpired, m)
    | (.ok msg_key, dr') =>
      let rkm' := { rkm with
        double_ratchet := dr'
        recv_message_num := max rkm.recv_message_num (em.msg_num + 1) }
      let m' := { m with
        ratchet_managers := insertD m.ratchet_managers session_id rkm' }
      match openBox msg_key em.nonce em.ciphertext with
      | .error _ => (.error .decryptFailed, m')
      | .ok pt => (.ok pt, m')

/-! ### Claim C10: operations on a missing session -/

/-- C10: when the session id is not in the manager's table, both
encrypt_message and decrypt_message raise the session-not-found error and
return the manager state entirely unchanged: no session is created or
mutated, no counter advances, and no ciphertext or plaintext is produced. -/
theorem missing_session_is_noop (kdf : Bytes → Bytes → Bytes)
    (sealBox : Bytes → Bytes → Bytes → Bytes)
    (openBox : Bytes → Bytes → Bytes → Except Unit Bytes)
    (nonce : Bytes) (now : Nat) (m : AdvancedCryptoManager)
    (session_id : String) (plaintext : Bytes) (em : EncryptedMsg)
    (h : lookupD m.ratchet_managers session_id = none) :
    m.encrypt_message kdf sealBox nonce now session_id plaintext =
      (.error .sessionNotFound, m) ∧
    m.decrypt_message kdf openBox session_id em =
      (.error .sessionNotFound, m) := by
  constructor
  · unfold AdvancedCryptoManager.encrypt_message
    rw [h]
  · unfold AdvancedCryptoManager.decrypt_message
    rw [h]

/-- Witness for missing_session_is_noop: a freshly initialized manager and
the session id "session_0". -/
theorem missing_session_is_noop_witness :
    (AdvancedCryptoManager.init toyPub
        ⟨encNat 3, encNat 5, [encNat 7]⟩).encrypt_message
      (fun _ i => i) (fun k _ p => k ++ p) [0] 0 "session_0" [104, 105] =
      (.error .sessionNotFound,
       AdvancedCryptoManager.init toyPub ⟨encNat 3, encNat 5, [encNat 7]⟩) ∧
    (AdvancedCryptoManager.init toyPub
        ⟨encNat 3, encNat 5, [encNat 7]⟩).decrypt_message
      (fun _ i => i) (fun _ _ c => .ok c) "session_0" ⟨[1], 0, [0], 0⟩ =
      (.error .sessionNotFound,
       AdvancedCryptoManager.init toyPub ⟨encNat 3, encNat 5, [encNat 7]⟩) :=
  missing_session_is_noop (fun _ i => i) (fun k _ p => k ++ p)
    (fun _ _ c => .ok c) [0] 0
    (AdvancedCryptoManager.init toyPub ⟨encNat 3, encNat 5, [encNat 7]⟩)
    "session_0" [104, 105] ⟨[1], 0, [0], 0⟩ rfl

/-! ### Claim C9: one-time prekeys are never consumed -/

/-- C9 (amended): the one-time prekey pool is never popped.
get_one_time_prekey_publics returns the public half of the entire pool
unchanged, and respond_to_session_request leaves the whole X3DH state —
including the pool and hence the selected (first) one-time prekey — intact,
so every bundle hands out the same OPKs and every responder-side agreement
uses the same first OPK. -/
theorem opk_pool_never_consumed (scalarmult kdf : Bytes → Bytes → Bytes)
    (pub : Bytes → Bytes) (m : AdvancedCryptoManager)
    (eph_pub peer_identity_key peer_signed_prekey : Bytes) :
    m.x3dh_manager.get_one_time_prekey_publics pub =
      m.x3dh_manager.one_time_prekeys.map pub ∧
    (m.respond_to_session_request scalarmult kdf eph_pub peer_identity_key
        peer_signed_prekey).2.x3dh_manager = m.x3dh_manager ∧
    (m.respond_to_session_request scalarmult kdf eph_pub peer_identity_key
        peer_signed_prekey).2.selected_opk = m.selected_opk :=
  ⟨rfl, rfl, rfl⟩

/-- C9 counterexample: a concrete manager with a pool of two one-time
prekeys: the first key agreement uses OPK number 7, and after it completes
the pool is unchanged and the next agreement selects the very same OPK —
the same OPK serves two key agreements, and two bundle requests return the
identical full pool. -/
theorem opk_reused_across_agreements :
    (AdvancedCryptoManager.init toyPub
        ⟨encNat 3, encNat 5, [encNat 7, encNat 13]⟩).selected_opk =
      some (encNat 7) ∧
    ((AdvancedCryptoManager.init toyPub
        ⟨encNat 3, encNat 5, [encNat 7, encNat 13]⟩).respond_to_session_request
        toyMul (fun _ i => i) (toyPub (encNat 11)) (toyPub (encNat 2))
        (toyPub (encNat 5))).2.selected_opk = some (encNat 7) ∧
    ((AdvancedCryptoManager.init toyPub
        ⟨encNat 3, encNat 5, [encNat 7, encNat 13]⟩).respond_to_session_request
        toyMul (fun _ i => i) (toyPub (encNat 11)) (toyPub (encNat 2))
        (toyPub (encNat 5))).2.x3dh_manager.one_time_prekeys =
      [encNat 7, encNat 13] := by
  refine ⟨rfl, rfl, rfl⟩

/-! ### Kademlia DHT (src/network/kademlia_dht.py)

Node identifiers are hexadecimal strings in the source, parsed with
int(id, 16) for every comparison and distance computation; they are
modelled here by their integer values.  time.time() is the parameter now.
The fields data_store and rpc_timeout of KademliaDHT and the methods that
use them are unrelated to the routing table and are not part of the
embedding. -/

structure Node where
  node_id : Nat
  ip : String
  port : Nat
  last_seen : Nat
deriving DecidableEq

structure KBucket where
  start : Nat
  stop : Nat
  k : Nat
  nodes : List Node
  last_accessed : Nat
deriving DecidableEq, Inhabited

/-- The update loop in KBucket.add_node: replace the first node with the
same node_id. -/
def replaceById : List Node → Node → List Node
  | [], _ => []
  | x :: rest, node =>
    if x.node_id = node.node_id then node :: rest
    else x :: replaceById rest node

/-- The expiry scan in KBucket.add_node: replace the first node whose
last_seen lies more than 900 seconds in the past. -/
def replaceExpired (now : Nat) : List Node → Node → Option (List Node)
  | [], _ => none
  | x :: rest, node =>
    if x.last_seen + 900 < now then some (node :: rest)
    else (replaceExpired now rest node).map (x :: ·)

/-- KBucket.add_node: update an existing entry, append if there is room,
else replace an expired entry; returns the updated bucket and the success
flag. -/
def KBucket.add_node (now : Nat) (b : KBucket) (node : Node) :
    KBucket × Bool :=
  if node ∈ b.nodes then
    ({ b with nodes := replaceById b.nodes node }, true)
  else if b.nodes.length < b.k then
    ({ b with nodes := b.nodes ++ [node] }, true)
  else
    match replaceExpired now b.nodes node with
    | some ns => ({ b with nodes := ns }, true)
    | none => (b, false)

structure KademliaDHT where
  node_id : Nat
  local_node : Node
  k : Nat
  bucket_size : Nat
  buckets : List KBucket
  node_cache : List (Nat × Node)
deriving DecidableEq

/-- KademliaDHT._distance: XOR of the two integer node ids. -/
def distance (node_id1 node_id2 : Nat) : Nat := node_id1 ^^^ node_id2

/-- KademliaDHT._get_bucket_index: bit_length() - 1 of the XOR distance
(Nat.size is Python int.bit_length), 255 for distance zero. -/
def KademliaDHT.get_bucket_index (d : KademliaDHT) (node_id : Nat) : Nat :=
  if distance d.node_id node_id = 0 then 255
  else Nat.size (distance d.node_id node_id) - 1

/-- KademliaDHT.add_node: ignore the own id, add to the bucket at the
computed index when it exists, and update the node cache. -/
def KademliaDHT.add_node (now : Nat) (d : KademliaDHT) (node : Node) :
    KademliaDHT :=
  if node.node_id = d.node_id then d
  else
    { d with
       buckets :=
         if d.get_bucket_index node.node_id < d.buckets.length then
           d.buckets.set (d.get_bucket_index node.node_id)
             ((KBucket.add_node now
               (d.buckets.getD (d.get_bucket_index node.node_id) default)
               node).1)
         else d.buckets
       node_cache := insertD d.node_cache node.node_id node }

/-- KademliaDHT._init_buckets: 256 buckets covering [2^i, 2^(i+1>)). -/
def init_buckets (now k : Nat) : List KBucket :=
  (List.range 256).map
    (fun i => ⟨if i > 0 then 2 ^ i else 0, 2 ^ (i + 1) - 1, k, [], now⟩)

/-- KademliaDHT.__init__: build the buckets, then add the local node
(which add_node ignores because the ids coincide). -/
def KademliaDHT.init (now node_id : Nat) (ip : String) (port k bucket_size : Nat) :
    KademliaDHT :=
  let d : KademliaDHT :=
    ⟨node_id, ⟨node_id, ip, port, now⟩, k, bucket_size,
     init_buckets now k, []⟩
  d.add_node now d.local_node

/-- For a nonzero number, bit number size - 1 (bit_length() - 1) is set. -/
theorem testBit_size_sub_one {n : Nat} (h : n ≠ 0) :
    Nat.testBit n (Nat.size n - 1) = true := by
  have hs : Nat.size n ≠ 0 := fun hz => h (Nat.size_eq_zero.mp hz)
  have h2l : 2 ^ (Nat.size n - 1) ≤ n := Nat.lt_size.mp (by omega)
  have hlt : n < 2 ^ (Nat.size n - 1 + 1) := Nat.size_le.mp (by omega)
  rw [Nat.testBit_to_div_mod]
  have hdiv : n / 2 ^ (Nat.size n - 1) = 1 := by
    have h1 : 1 ≤ n / 2 ^ (Nat.size n - 1) :=
      (Nat.one_le_div_iff (Nat.two_pow_pos _)).mpr h2l
    have h2 : n / 2 ^ (Nat.size n - 1) < 2 := by
      rw [Nat.div_lt_iff_lt_mul (Nat.two_pow_pos _)]
      rw [pow_succ] at hlt
      omega
    omega
  rw [hdiv]
  decide

/-- Bit number size - 1 is the highest set bit. -/
theorem testBit_le_size_sub_one {n j : Nat} (h : Nat.testBit n j = true) :
    j ≤ Nat.size n - 1 := by
  by_contra hgt
  have hjs : Nat.size n ≤ j := by omega
  have : n < 2 ^ j :=
    Nat.lt_of_lt_of_le (Nat.size_le.mp le_rfl) (Nat.pow_le_pow_right (by omega) hjs)
  rw [Nat.testBit_lt_two_pow this] at h
  exact Bool.false_ne_true h

/-- Membership after a successful replaceExpired. -/
theorem replaceExpired_mem (now : Nat) (l : List Node) (node : Node)
    (ns : List Node) (h : replaceExpired now l node = some ns) :
    node ∈ ns := by
  induction l generalizing ns with
  | nil => simp [replaceExpired] at h
  | cons x rest ih =>
    unfold replaceExpired at h
    by_cases hx : x.last_seen + 900 < now
    · rw [if_pos hx] at h
      cases h
      exact List.mem_cons_self _ _
    · rw [if_neg hx] at h
      match hrec : replaceExpired now rest node with
      | none => rw [hrec] at h; simp at h
      | some ns' =>
        rw [hrec] at h
        have h2 : x :: ns' = ns := by simpa using h
        rw [← h2]
        exact List.mem_cons_of_mem x (ih ns' hrec)

/-- A successful KBucket.add_node of a node not already present puts the
node into the bucket. -/
theorem KBucket.add_node_mem (now : Nat) (b : KBucket) (node : Node)
    (hnot : node ∉ b.nodes)
    (hs : (KBucket.add_node now b node).2 = true) :
    node ∈ ((KBucket.add_node now b node).1).nodes := by
  unfold KBucket.add_node at hs ⊢
  rw [if_neg hnot] at hs ⊢
  by_cases hroom : b.nodes.length < b.k
  · rw [if_pos hroom]
    simp
  · rw [if_neg hroom] at hs ⊢
    match hrep : replaceExpired now b.nodes node with
    | some ns =>
      exact replaceExpired_mem now b.nodes node ns hrep
    | none =>
      rw [hrep] at hs
      simp at hs

/-- C7: for a peer whose id differs from the local id (both 256-bit), the
insertion touches exactly the bucket whose index is the highest set bit of
the XOR distance: that bit is set, no higher bit is set, every other
bucket is returned unchanged, the peer can appear only in that one bucket
after the call, and whenever the bucket accepts the peer (room, or an
expired entry) the peer is indeed stored in exactly that bucket. -/
theorem bucket_placement (now : Nat) (d : KademliaDHT) (p : Node)
    (hlen : d.buckets.length = 256)
    (hne : p.node_id ≠ d.node_id)
    (hd : d.node_id < 2 ^ 256) (hp : p.node_id < 2 ^ 256)
    (hnotin : ∀ b ∈ d.buckets, p ∉ b.nodes) :
    Nat.testBit (distance d.node_id p.node_id)
      (d.get_bucket_index p.node_id) = true ∧
    (∀ j, Nat.testBit (distance d.node_id p.node_id) j = true →
      j ≤ d.get_bucket_index p.node_id) ∧
    (∀ j, j ≠ d.get_bucket_index p.node_id →
      (d.add_node now p).buckets[j]? = d.buckets[j]?) ∧
    (∀ j bj, (d.add_node now p).buckets[j]? = some bj → p ∈ bj.nodes →
      j = d.get_bucket_index p.node_id) ∧
    ((KBucket.add_node now
        (d.buckets.getD (d.get_bucket_index p.node_id) default) p).2 = true →
      ∃ bi, (d.add_node now p).buckets[d.get_bucket_index p.node_id]? = some bi ∧
        p ∈ bi.nodes) := by
  have hdist0 : distance d.node_id p.node_id ≠ 0 := by
    unfold distance
    rw [Ne, Nat.xor_eq_zero]
    exact fun he => hne he.symm
  have hidx : d.get_bucket_index p.node_id =
      Nat.size (distance d.node_id p.node_id) - 1 := by
    unfold KademliaDHT.get_bucket_index
    rw [if_neg hdist0]
  have hidxlt : d.get_bucket_index p.node_id < d.buckets.length := by
    rw [hidx, hlen]
    have hxlt : distance d.node_id p.node_id < 2 ^ 256 :=
      Nat.xor_lt_two_pow hd hp
    have := Nat.size_le.mpr hxlt
    omega
  have hadd : (d.add_node now p).buckets =
      d.buckets.set (d.get_bucket_index p.node_id)
        ((KBucket.add_node now
          (d.buckets.getD (d.get_bucket_index p.node_id) default) p).1) := by
    unfold KademliaDHT.add_node
    rw [if_neg hne]
    dsimp only
    rw [if_pos hidxlt]
  have hmemD : d.buckets.getD (d.get_bucket_index p.node_id) default
      ∈ d.buckets := by
    rw [List.getD_eq_getElem _ _ hidxlt]
    exact List.getElem_mem hidxlt
  refine ⟨?_, ?_, ?_, ?_, ?_⟩
  · rw [hidx]
    exact testBit_size_sub_one hdist0
  · intro j hj
    rw [hidx]
    exact testBit_le_size_sub_one hj
  · intro j hj
    rw [hadd]
    exact List.getElem?_set_ne (fun he => hj he.symm)
  · intro j bj hjb hpin
    by_contra hj
    rw [hadd, List.getElem?_set_ne (fun he => hj he.symm)] at hjb
    exact hnotin bj (List.getElem?_mem hjb) hpin
  · intro hs
    refine ⟨(KBucket.add_node now
      (d.buckets.getD (d.get_bucket_index p.node_id) default) p).1, ?_, ?_⟩
    · rw [hadd]
      exact List.getElem?_set_self hidxlt
    · exact KBucket.add_node_mem now _ p (hnotin _ hmemD) hs

/-- Witness for bucket_placement: local id 1, peer id 33, XOR distance 32,
bucket index 5 (the scenario of spec test 6). -/
theorem bucket_placement_witness :
    (KademliaDHT.init 0 1 "local" 8000 20 8).buckets.length = 256 ∧
    (33 : Nat) ≠ 1 ∧ (1 : Nat) < 2 ^ 256 ∧ (33 : Nat) < 2 ^ 256 ∧
    (∀ b ∈ (KademliaDHT.init 0 1 "local" 8000 20 8).buckets,
      (⟨33, "peer", 8001, 0⟩ : Node) ∉ b.nodes) ∧
    (Nat.testBit (distance 1 33)
      ((KademliaDHT.init 0 1 "local" 8000 20 8).get_bucket_index 33) = true ∧
    (∀ j, Nat.testBit (distance 1 33) j = true →
      j ≤ (KademliaDHT.init 0 1 "local" 8000 20 8).get_bucket_index 33) ∧
    (∀ j, j ≠ (KademliaDHT.init 0 1 "local" 8000 20 8).get_bucket_index 33 →
      ((KademliaDHT.init 0 1 "local" 8000 20 8).add_node 0
        ⟨33, "peer", 8001, 0⟩).buckets[j]? =
        (KademliaDHT.init 0 1 "local" 8000 20 8).buckets[j]?) ∧
    (∀ j bj, ((KademliaDHT.init 0 1 "local" 8000 20 8).add_node 0
        ⟨33, "peer", 8001, 0⟩).buckets[j]? = some bj →
      (⟨33, "peer", 8001, 0⟩ : Node) ∈ bj.nodes →
      j = (KademliaDHT.init 0 1 "local" 8000 20 8).get_bucket_index 33) ∧
    ((KBucket.add_node 0
        ((KademliaDHT.init 0 1 "local" 8000 20 8).buckets.getD
          ((KademliaDHT.init 0 1 "local" 8000 20 8).get_bucket_index 33)
          default) ⟨33, "peer", 8001, 0⟩).2 = true →
      ∃ bi, ((KademliaDHT.init 0 1 "local" 8000 20 8).add_node 0
          ⟨33, "peer", 8001, 0⟩).buckets[
            (KademliaDHT.init 0 1 "local" 8000 20 8).get_bucket_index 33]? =
          some bi ∧ (⟨33, "peer", 8001, 0⟩ : Node) ∈ bi.nodes)) :=
  ⟨by decide, by decide, by decide, by decide, by decide,
   bucket_placement 0 (KademliaDHT.init 0 1 "local" 8000 20 8)
     ⟨33, "peer", 8001, 0⟩ (by decide) (by decide) (by decide) (by decide)
     (by decide)⟩

/-! ### Claim C8: the routing table is bounded -/

/-- Total number of peer records held in the buckets. -/
def total_size (d : KademliaDHT) : Nat :=
  (d.buckets.map (fun b => b.nodes.length)).sum

/-- Size invariant: 256 buckets, each within its capacity, every capacity
equal to the table parameter k. -/
def size_inv (k : Nat) (d : KademliaDHT) : Prop :=
  d.buckets.length = 256 ∧ ∀ b ∈ d.buckets, b.nodes.length ≤ b.k ∧ b.k = k

theorem replaceById_length (l : List Node) (node : Node) :
    (replaceById l node).length = l.length := by
  induction l with
  | nil => rfl
  | cons x rest ih =>
    unfold replaceById
    by_cases h : x.node_id = node.node_id
    · simp [h]
    · simp [h, ih]

theorem replaceExpired_length (now : Nat) (l : List Node) (node : Node)
    (ns : List Node) (h : replaceExpired now l node = some ns) :
    ns.length = l.length := by
  induction l generalizing ns with
  | nil => simp [replaceExpired] at h
  | cons x rest ih =>
    unfold replaceExpired at h
    by_cases hx : x.last_seen + 900 < now
    · rw [if_pos hx] at h
      cases h
      simp
    · rw [if_neg hx] at h
      match hrec : replaceExpired now rest node with
      | none => rw [hrec] at h; simp at h
      | some ns' =>
        rw [hrec] at h
        have h2 : x :: ns' = ns := by simpa using h
        rw [← h2]
        simp [ih ns' hrec]

/-- KBucket.add_node never grows a bucket beyond its capacity and never
changes the capacity. -/
theorem KBucket.add_node_bounded (now : Nat) (b : KBucket) (node : Node)
    (h : b.nodes.length ≤ b.k) :
    ((KBucket.add_node now b node).1).nodes.length ≤ b.k ∧
    ((KBucket.add_node now b node).1).k = b.k := by
  unfold KBucket.add_node
  by_cases hmem : node ∈ b.nodes
  · rw [if_pos hmem]
    exact ⟨by simpa [replaceById_length] using h, rfl⟩
  · rw [if_neg hmem]
    by_cases hroom : b.nodes.length < b.k
    · rw [if_pos hroom]
      constructor
      · show (b.nodes ++ [node]).length ≤ b.k
        rw [List.length_append]
        simp only [List.length_cons, List.length_nil]
        omega
      · rfl
    · rw [if_neg hroom]
      match hrep : replaceExpired now b.nodes node with
      | some ns =>
        exact ⟨by simpa [replaceExpired_length now b.nodes node ns hrep] using h, rfl⟩
      | none => exact ⟨h, rfl⟩

/-- KademliaDHT.add_node preserves the size invariant. -/
theorem size_inv_add_node (k now : Nat) (d : KademliaDHT) (node : Node)
    (h : size_inv k d) : size_inv k (d.add_node now node) := by
  obtain ⟨hlen, hbound⟩ := h
  unfold KademliaDHT.add_node
  by_cases hid : node.node_id = d.node_id
  · rw [if_pos hid]
    exact ⟨hlen, hbound⟩
  · rw [if_neg hid]
    by_cases hidx : d.get_bucket_index node.node_id < d.buckets.length
    · rw [if_pos hidx]
      refine ⟨by simpa using hlen, ?_⟩
      intro b hb
      rcases List.mem_or_eq_of_mem_set hb with hb | hb
      · exact hbound b hb
      · have hold : d.buckets.getD (d.get_bucket_index node.node_id) default
            ∈ d.buckets := by
          rw [List.getD_eq_getElem _ _ hidx]
          exact List.getElem_mem hidx
        obtain ⟨hob, hok⟩ := hbound _ hold
        obtain ⟨h1, h2⟩ := KBucket.add_node_bounded now
          (d.buckets.getD (d.get_bucket_index node.node_id) default) node hob
        subst hb
        exact ⟨by omega, by omega⟩
    · rw [if_neg hidx]
      exact ⟨hlen, hbound⟩

theorem size_inv_init (now node_id : Nat) (ip : String) (port k bucket_size : Nat) :
    size_inv k (KademliaDHT.init now node_id ip port k bucket_size) := by
  unfold KademliaDHT.init
  dsimp only
  unfold KademliaDHT.add_node
  rw [if_pos rfl]
  constructor
  · simp [init_buckets]
  · intro b hb
    simp only [init_buckets, List.mem_map] at hb
    obtain ⟨i, _, hbi⟩ := hb
    rw [← hbi]
    exact ⟨by simp, rfl⟩

theorem sum_nodes_le (k : Nat) (l : List KBucket)
    (h : ∀ b ∈ l, b.nodes.length ≤ b.k ∧ b.k = k) :
    (l.map (fun b => b.nodes.length)).sum ≤ k * l.length := by
  induction l with
  | nil => simp
  | cons b rest ih =>
    simp only [List.map_cons, List.sum_cons, List.length_cons]
    have hb := h b (List.mem_cons_self b rest)
    have hrest := ih (fun b' hb' => h b' (List.mem_cons_of_mem b hb'))
    have : b.nodes.length ≤ k := by omega
    rw [Nat.mul_succ]
    omega

/-- The size invariant is preserved along any fold of insertions. -/
theorem size_inv_foldl (k : Nat) (ops : List (Nat × Node)) (d : KademliaDHT)
    (hd : size_inv k d) :
    size_inv k (ops.foldl (fun d q => d.add_node q.1 q.2) d) := by
  induction ops generalizing d with
  | nil => exact hd
  | cons q rest ih =>
    rw [List.foldl_cons]
    exact ih _ (size_inv_add_node k q.1 d q.2 hd)

/-- C8: after every sequence of insertions into a freshly initialized
routing table (each with its own clock value), the total number of peer
records held in the buckets is at most k * 256: no add_node call grows any
bucket past k entries and the table always has exactly 256 buckets. -/
theorem routing_table_bounded (now node_id : Nat) (ip : String)
    (port k bucket_size : Nat) (ops : List (Nat × Node)) :
    total_size (ops.foldl (fun d q => d.add_node q.1 q.2)
      (KademliaDHT.init now node_id ip port k bucket_size)) ≤ k * 256 := by
  have hinv : size_inv k (ops.foldl (fun d q => d.add_node q.1 q.2)
      (KademliaDHT.init now node_id ip port k bucket_size)) :=
    size_inv_foldl k ops _ (size_inv_init now node_id ip port k bucket_size)
  obtain ⟨hlen, hbound⟩ := hinv
  unfold total_size
  calc (((ops.foldl (fun d q => d.add_node q.1 q.2)
      (KademliaDHT.init now node_id ip port k bucket_size)).buckets.map
        (fun b => b.nodes.length)).sum)
      ≤ k * ((ops.foldl (fun d q => d.add_node q.1 q.2)
        (KademliaDHT.init now node_id ip port k bucket_size)).buckets.length) :=
        sum_nodes_le k _ hbound
    _ = k * 256 := by rw [hlen]
